import Mathlib

/-!
Verification of the one-dimensional inelastic-collision simulation engine
(`src/inelastic_collision/main.cpp`). The C++ `float` fields are modelled
as exact rationals `ℚ`; the mutable `std::vector<Particle>` members become
`List Particle`, and each member function of `Simulation` becomes a pure
state-passing function.
-/

/-- The `Particle` struct: `mass`, `velocity`, `x_pos` (all `float` in the
source, modelled as `ℚ`). -/
structure Particle where
  mass : ℚ
  velocity : ℚ
  x_pos : ℚ
deriving Repr, DecidableEq

/-- The private state of class `Simulation`: the live `particles` vector,
the `initial` snapshot, and the `hasCollided` flag. -/
structure Simulation where
  particles : List Particle
  initial : List Particle
  hasCollided : Bool
deriving Repr, DecidableEq

/-- `Simulation::addParticle`: `particles.push_back(p)`. -/
def Simulation.addParticle (s : Simulation) (p : Particle) : Simulation :=
  { s with particles := s.particles ++ [p] }

/-- `Simulation::reset`: `particles = initial; hasCollided = false;`. -/
def Simulation.reset (s : Simulation) : Simulation :=
  { s with particles := s.initial, hasCollided := false }

/-- `Simulation::setInitial`: `initial = init; particles = init;
hasCollided = false;`. -/
def Simulation.setInitial (_s : Simulation) (init : List Particle) : Simulation :=
  { initial := init, particles := init, hasCollided := false }

/-- `Simulation::kineticEnergy`: `0.5f * p.mass * p.velocity * p.velocity`. -/
def kineticEnergy (p : Particle) : ℚ :=
  1/2 * p.mass * p.velocity * p.velocity

/-- `Simulation::totalKineticEnergy`: `kineticEnergy(a) + kineticEnergy(b)`. -/
def totalKineticEnergy (a b : Particle) : ℚ :=
  kineticEnergy a + kineticEnergy b

/-- `Simulation::handleCollision`: returns
`((p1.mass * p1.velocity) + (p2.mass * p2.velocity)) / (p1.mass + p2.mass)`.
The two discarded kinetic-energy calls in the source have no effect. -/
def handleCollision (p1 p2 : Particle) : ℚ :=
  (p1.mass * p1.velocity + p2.mass * p2.velocity) / (p1.mass + p2.mass)

/-- The integration loop at the top of `Simulation::update`:
`for (auto &p : particles) p.x_pos += p.velocity * dt;`. -/
def advance (ps : List Particle) (dt : ℚ) : List Particle :=
  ps.map fun p => { p with x_pos := p.x_pos + p.velocity * dt }

/-- `Simulation::update(dt)`: integrate every particle, then, if
`particles.size() >= 2 && !hasCollided` and `p1.x_pos >= p2.x_pos`
(for the integrated particles at indices 0 and 1), clear the vector and
push the combined particle, setting `hasCollided = true`. -/
def Simulation.update (s : Simulation) (dt : ℚ) : Simulation :=
  match advance s.particles dt, s.hasCollided with
  | p1 :: p2 :: rest, false =>
      if p1.x_pos ≥ p2.x_pos then
        { s with
          particles := [{ mass := p1.mass + p2.mass,
                          velocity := handleCollision p1 p2,
                          x_pos := 1/2 * (p1.x_pos + p2.x_pos) }],
          hasCollided := true }
      else
        { s with particles := p1 :: p2 :: rest }
  | ps, _ => { s with particles := ps }

/-- A sequence of `update` calls with the given `dt` values. -/
def runUpdates (s : Simulation) (dts : List ℚ) : Simulation :=
  dts.foldl Simulation.update s

/-- The public operations usable between `setInitial` and `reset` in the
driver loop: `update(dt)` and `reset()`. -/
inductive SimOp where
  | upd (dt : ℚ)
  | rst
deriving Repr, DecidableEq

/-- Apply one driver operation to the simulation state. -/
def applySimOp (s : Simulation) : SimOp → Simulation
  | SimOp.upd dt => s.update dt
  | SimOp.rst => s.reset

/-- A sequence of driver operations. -/
def runSimOps (s : Simulation) (ops : List SimOp) : Simulation :=
  ops.foldl applySimOp s

/-- The integration loop preserves the number of particles. -/
lemma advance_length (ps : List Particle) (dt : ℚ) :
    (advance ps dt).length = ps.length := by
  simp [advance]

/-- Integrating with `dt = 0` leaves the particle list unchanged. -/
lemma advance_zero (ps : List Particle) : advance ps 0 = ps := by
  simp [advance]

/-- Once `hasCollided` holds, `update` only integrates. -/
lemma update_collided (s : Simulation) (dt : ℚ) (hc : s.hasCollided = true) :
    s.update dt = { s with particles := advance s.particles dt } := by
  rcases h1 : advance s.particles dt with _ | ⟨p1, _ | ⟨p2, rest⟩⟩ <;>
    simp [Simulation.update, h1, hc]

/-- With fewer than two particles after integration, `update` only
integrates. -/
lemma update_short (s : Simulation) (dt : ℚ)
    (h : (advance s.particles dt).length ≤ 1) :
    s.update dt = { s with particles := advance s.particles dt } := by
  rcases h1 : advance s.particles dt with _ | ⟨p1, _ | ⟨p2, rest⟩⟩
  · cases hc : s.hasCollided <;> simp [Simulation.update, h1, hc]
  · cases hc : s.hasCollided <;> simp [Simulation.update, h1, hc]
  · rw [h1] at h; simp at h

/-- When the first integrated particle is strictly left of the second,
`update` only integrates. -/
lemma update_no_merge (s : Simulation) (dt : ℚ) (p1 p2 : Particle)
    (rest : List Particle) (h1 : advance s.particles dt = p1 :: p2 :: rest)
    (hlt : p1.x_pos < p2.x_pos) :
    s.update dt = { s with particles := advance s.particles dt } := by
  cases hc : s.hasCollided
  · simp [Simulation.update, h1, hc, not_le.mpr hlt]
  · rw [update_collided s dt hc, hc]

/-- When the detection condition holds, `update` replaces the particle
list with the single combined particle and sets the flag. -/
lemma update_merge (s : Simulation) (dt : ℚ) (p1 p2 : Particle)
    (rest : List Particle) (h1 : advance s.particles dt = p1 :: p2 :: rest)
    (hc : s.hasCollided = false) (hge : p1.x_pos ≥ p2.x_pos) :
    s.update dt =
      { s with
        particles := [{ mass := p1.mass + p2.mass,
                        velocity := handleCollision p1 p2,
                        x_pos := 1/2 * (p1.x_pos + p2.x_pos) }],
        hasCollided := true } := by
  simp [Simulation.update, h1, hc, hge]

/-- `update` never touches the `initial` snapshot. -/
lemma update_initial (s : Simulation) (dt : ℚ) :
    (s.update dt).initial = s.initial := by
  rcases h1 : advance s.particles dt with _ | ⟨p1, _ | ⟨p2, rest⟩⟩ <;>
    cases hc : s.hasCollided <;>
      (simp [Simulation.update, h1, hc]; try split) <;> rfl

/-- Claim C1: when the collision fires during an update on a two-element
particle sequence, the sequence is replaced by the single combined
particle with mass `m1 + m2`, velocity `(m1*v1 + m2*v2) / (m1 + m2)`, and
position `(position1 + position2) / 2` taken from the two bodies at
detection time (after integration), and the collided flag is set true. -/
theorem C1_two_body_merge (s : Simulation) (dt : ℚ) (p1 p2 : Particle)
    (hps : s.particles = [p1, p2]) (hc : s.hasCollided = false)
    (hfire : p1.x_pos + p1.velocity * dt ≥ p2.x_pos + p2.velocity * dt) :
    s.update dt =
      { s with
        particles := [{ mass := p1.mass + p2.mass,
                        velocity := (p1.mass * p1.velocity + p2.mass * p2.velocity)
                            / (p1.mass + p2.mass),
                        x_pos := ((p1.x_pos + p1.velocity * dt)
                            + (p2.x_pos + p2.velocity * dt)) / 2 }],
        hasCollided := true } := by
  have hadv : advance s.particles dt =
      ({ p1 with x_pos := p1.x_pos + p1.velocity * dt }) ::
        ({ p2 with x_pos := p2.x_pos + p2.velocity * dt }) :: [] := by
    simp [advance, hps]
  rw [update_merge s dt _ _ _ hadv hc hfire]
  simp [handleCollision]
  ring

/-- Witness for C1 at the concrete scenario from the program's `main`. -/
theorem C1_two_body_merge_witness :
    (Simulation.mk [⟨5, 10, 0⟩, ⟨2, 0, 20⟩] [⟨5, 10, 0⟩, ⟨2, 0, 20⟩] false).update 2 =
      Simulation.mk
        [{ mass := (5 : ℚ) + 2,
           velocity := ((5 : ℚ) * 10 + 2 * 0) / (5 + 2),
           x_pos := (((0 : ℚ) + 10 * 2) + (20 + 0 * 2)) / 2 }]
        [⟨5, 10, 0⟩, ⟨2, 0, 20⟩] true :=
  C1_two_body_merge _ 2 ⟨5, 10, 0⟩ ⟨2, 0, 20⟩ rfl rfl (by norm_num)

/-- Claim C2 as stated is false: the source guard is
`particles.size() >= 2`, not `== 2`, so the collision test is also applied
when three particles are present. Concretely, a three-particle state with
crossed leading positions collides under `update 0`. -/
theorem C2_counterexample :
    (Simulation.mk [⟨1, 0, 5⟩, ⟨1, 0, 3⟩, ⟨1, 0, 99⟩] [] false).particles.length = 3
    ∧ ((Simulation.mk [⟨1, 0, 5⟩, ⟨1, 0, 3⟩, ⟨1, 0, 99⟩] [] false).update 0).hasCollided
        = true := by
  constructor
  · rfl
  · simp [Simulation.update, advance]
    norm_num

/-- Claim C2, amended: the collision test is applied only while the
integrated particle sequence has length at least two and the collided
flag is false; it fires exactly when the integrated position of the
particle at index 0 is at least that of the particle at index 1 (no
radius is involved), the positions being those after the integration step
of the same update call. -/
theorem C2_detection_guard (s : Simulation) (dt : ℚ) :
    (∀ p1 p2 rest, advance s.particles dt = p1 :: p2 :: rest →
        s.hasCollided = false → p1.x_pos ≥ p2.x_pos →
        (s.update dt).particles =
          [{ mass := p1.mass + p2.mass, velocity := handleCollision p1 p2,
             x_pos := 1/2 * (p1.x_pos + p2.x_pos) }]
        ∧ (s.update dt).hasCollided = true)
    ∧ (∀ p1 p2 rest, advance s.particles dt = p1 :: p2 :: rest →
        s.hasCollided = false → p1.x_pos < p2.x_pos →
        s.update dt = { s with particles := advance s.particles dt })
    ∧ (s.hasCollided = true →
        s.update dt = { s with particles := advance s.particles dt })
    ∧ ((advance s.particles dt).length ≤ 1 →
        s.update dt = { s with particles := advance s.particles dt }) := by
  refine ⟨?_, ?_, ?_, ?_⟩
  · intro p1 p2 rest h1 hc hge
    rw [update_merge s dt p1 p2 rest h1 hc hge]
    exact ⟨rfl, rfl⟩
  · intro p1 p2 rest h1 hc hlt
    exact update_no_merge s dt p1 p2 rest h1 hlt
  · intro hc
    exact update_collided s dt hc
  · intro h
    exact update_short s dt h

/-- Witness for C2's amended guard characterisation at a concrete
two-particle crossed state. -/
theorem C2_detection_guard_witness :
    ((Simulation.mk [⟨1, 0, 5⟩, ⟨1, 0, 3⟩] [] false).update 0).hasCollided = true :=
  ((C2_detection_guard (Simulation.mk [⟨1, 0, 5⟩, ⟨1, 0, 3⟩] [] false) 0).1
    ⟨1, 0, 5 + 0 * 0⟩ ⟨1, 0, 3 + 0 * 0⟩ [] (by simp [advance]) rfl (by norm_num)).2

/-- Claim C3 as stated is false: `update 0` performs no integration
movement, but the collision branch still runs, so a two-particle state
whose positions are already crossed merges and flips the collided flag
even with `dt = 0`. -/
theorem C3_counterexample :
    (Simulation.mk [⟨1, 0, 5⟩, ⟨1, 0, 3⟩] [] false).hasCollided = false
    ∧ ((Simulation.mk [⟨1, 0, 5⟩, ⟨1, 0, 3⟩] [] false).update 0).hasCollided = true
    ∧ ((Simulation.mk [⟨1, 0, 5⟩, ⟨1, 0, 3⟩] [] false).update 0).particles.length = 1 := by
  refine ⟨rfl, ?_, ?_⟩ <;> (simp [Simulation.update, advance]; norm_num)

/-- Claim C3, amended: `update 0` is the identity on the whole simulation
state provided the collision condition does not hold at entry — that is,
whenever the particle list does not start with two particles
`p1 :: p2 :: _` having `collided = false` and `p1.x_pos ≥ p2.x_pos`.
(The integration step itself never moves anything at `dt = 0`.) -/
theorem C3_update_zero_identity (s : Simulation)
    (hguard : ∀ p1 p2 rest, s.particles = p1 :: p2 :: rest →
        s.hasCollided = true ∨ p1.x_pos < p2.x_pos) :
    s.update 0 = s := by
  rcases hps : s.particles with _ | ⟨p1, _ | ⟨p2, rest⟩⟩
  · rw [update_short s 0 (by rw [advance_zero, hps]; simp), advance_zero]
  · rw [update_short s 0 (by rw [advance_zero, hps]; simp), advance_zero]
  · rcases hguard p1 p2 rest hps with hc | hlt
    · rw [update_collided s 0 hc, advance_zero]
    · rw [update_no_merge s 0 p1 p2 rest (by rw [advance_zero, hps]) hlt,
        advance_zero]

/-- Witness for C3's amended statement at a concrete uncrossed
two-particle state. -/
theorem C3_update_zero_identity_witness :
    (Simulation.mk [⟨1, 2, 0⟩, ⟨3, 4, 10⟩] [] false).update 0 =
      Simulation.mk [⟨1, 2, 0⟩, ⟨3, 4, 10⟩] [] false := by
  refine C3_update_zero_identity _ ?_
  intro p1 p2 rest h
  right
  have h1 : p1 = ⟨1, 2, 0⟩ ∧ p2 = ⟨3, 4, 10⟩ ∧ rest = [] := by
    simpa using h.symm
  rw [h1.1, h1.2.1]
  norm_num

/-- Unfolding: an empty sequence of updates does nothing. -/
lemma runUpdates_nil (s : Simulation) : runUpdates s [] = s := rfl

/-- Unfolding: a sequence of updates is one update then the rest. -/
lemma runUpdates_cons (s : Simulation) (dt : ℚ) (t : List ℚ) :
    runUpdates s (dt :: t) = runUpdates (s.update dt) t := rfl

/-- Unfolding: an empty sequence of driver operations does nothing. -/
lemma runSimOps_nil (s : Simulation) : runSimOps s [] = s := rfl

/-- Unfolding: a sequence of driver operations is one operation then the
rest. -/
lemma runSimOps_cons (s : Simulation) (op : SimOp) (t : List SimOp) :
    runSimOps s (op :: t) = runSimOps (applySimOp s op) t := rfl

/-- `initial` is unchanged by any sequence of updates. -/
lemma runUpdates_initial (dts : List ℚ) (s : Simulation) :
    (runUpdates s dts).initial = s.initial := by
  induction dts generalizing s with
  | nil => rfl
  | cons dt t ih =>
      rw [runUpdates_cons, ih, update_initial]

/-- Claim C4: after any sequence of updates, `reset` restores the
particle sequence passed to the most recent `setInitial`, clears the
collided flag, and leaves the stored initial snapshot untouched. -/
theorem C4_reset_restores_initial (s0 : Simulation) (init : List Particle)
    (dts : List ℚ) :
    (runUpdates (s0.setInitial init) dts).reset.particles = init
    ∧ (runUpdates (s0.setInitial init) dts).reset.hasCollided = false
    ∧ (runUpdates (s0.setInitial init) dts).reset.initial = init := by
  have hinit : (runUpdates (s0.setInitial init) dts).initial = init := by
    rw [runUpdates_initial]
    rfl
  exact ⟨by rw [Simulation.reset, hinit], rfl, by rw [Simulation.reset]; exact hinit⟩

/-- One update either merges down to a single particle or keeps the
particle count. -/
lemma update_length (s : Simulation) (dt : ℚ) :
    (s.update dt).particles.length = 1
    ∨ (s.update dt).particles.length = s.particles.length := by
  rcases h1 : advance s.particles dt with _ | ⟨p1, _ | ⟨p2, rest⟩⟩
  · rw [update_short s dt (by rw [h1]; simp), h1]
    right
    rw [← advance_length s.particles dt, h1]
  · rw [update_short s dt (by rw [h1]; simp), h1]
    right
    rw [← advance_length s.particles dt, h1]
  · cases hc : s.hasCollided
    · by_cases hge : p1.x_pos ≥ p2.x_pos
      · rw [update_merge s dt p1 p2 rest h1 hc hge]
        left
        rfl
      · rw [update_no_merge s dt p1 p2 rest h1 (lt_of_not_ge hge), h1]
        right
        rw [← advance_length s.particles dt, h1]
    · rw [update_collided s dt hc, h1]
      right
      rw [← advance_length s.particles dt, h1]

/-- One update never adds particles. -/
lemma update_length_le (s : Simulation) (dt : ℚ) :
    (s.update dt).particles.length ≤ s.particles.length := by
  rcases h1 : advance s.particles dt with _ | ⟨p1, _ | ⟨p2, rest⟩⟩
  · rw [update_short s dt (by rw [h1]; simp), h1]
    rw [← advance_length s.particles dt, h1]
  · rw [update_short s dt (by rw [h1]; simp), h1]
    rw [← advance_length s.particles dt, h1]
  · have hlen : s.particles.length = rest.length + 2 := by
      rw [← advance_length s.particles dt, h1]
      rfl
    cases hc : s.hasCollided
    · by_cases hge : p1.x_pos ≥ p2.x_pos
      · rw [update_merge s dt p1 p2 rest h1 hc hge, hlen]
        simp
      · rw [update_no_merge s dt p1 p2 rest h1 (lt_of_not_ge hge), h1, hlen]
        rw [List.length_cons, List.length_cons]
    · rw [update_collided s dt hc, h1, hlen]
      rw [List.length_cons, List.length_cons]

/-- The invariant of the update/reset driver loop: the initial snapshot
is preserved and the particle count stays 1 or 2. -/
lemma runSimOps_invariant (ops : List SimOp) (init : List Particle)
    (h2 : init.length = 2) (s : Simulation)
    (hs : s.initial = init
      ∧ (s.particles.length = 1 ∨ s.particles.length = 2)) :
    (runSimOps s ops).initial = init
    ∧ ((runSimOps s ops).particles.length = 1
        ∨ (runSimOps s ops).particles.length = 2) := by
  induction ops generalizing s with
  | nil => exact hs
  | cons op t ih =>
      rw [runSimOps_cons]
      refine ih (applySimOp s op) ?_
      cases op with
      | upd dt =>
          refine ⟨by rw [applySimOp, update_initial]; exact hs.1, ?_⟩
          rcases update_length s dt with h | h
          · exact Or.inl h
          · rw [applySimOp, h]
            exact hs.2
      | rst =>
          refine ⟨hs.1, ?_⟩
          rw [applySimOp, Simulation.reset]
          right
          simpa [hs.1] using h2

/-- Claim C5 as stated is false: `addParticle` is a public operation and
immediately drives the particle count to 3 from a freshly configured
two-particle state. -/
theorem C5_counterexample :
    (((Simulation.mk [] [] false).setInitial
        [⟨1, 0, 0⟩, ⟨1, 0, 10⟩]).addParticle ⟨1, 0, 20⟩).particles.length = 3
    ∧ ¬ ((((Simulation.mk [] [] false).setInitial
          [⟨1, 0, 0⟩, ⟨1, 0, 10⟩]).addParticle ⟨1, 0, 20⟩).particles.length = 1
        ∨ (((Simulation.mk [] [] false).setInitial
          [⟨1, 0, 0⟩, ⟨1, 0, 10⟩]).addParticle ⟨1, 0, 20⟩).particles.length = 2) := by
  refine ⟨rfl, ?_⟩
  rintro (h | h) <;> simp [Simulation.setInitial, Simulation.addParticle] at h

/-- Claim C5, amended: in every state reachable from a two-particle
`setInitial` through `update` and `reset` calls only (excluding
`addParticle`), the particle count is 1 or 2; moreover no single `update`
ever increases the particle count, so it returns to 2 only through
`reset` or `setInitial`. -/
theorem C5_length_invariant (s0 : Simulation) (init : List Particle)
    (h2 : init.length = 2) (ops : List SimOp) :
    ((runSimOps (s0.setInitial init) ops).particles.length = 1
      ∨ (runSimOps (s0.setInitial init) ops).particles.length = 2)
    ∧ ∀ s dt, (Simulation.update s dt).particles.length ≤ s.particles.length := by
  refine ⟨?_, fun s dt => update_length_le s dt⟩
  exact (runSimOps_invariant ops init h2 (s0.setInitial init)
    ⟨rfl, Or.inr h2⟩).2

/-- Witness for C5's amended invariant on a concrete run that merges and
then resets. -/
theorem C5_length_invariant_witness :
    ([(⟨1, 5, 0⟩ : Particle), ⟨1, 0, 1⟩].length = 2)
    ∧ ((runSimOps ((Simulation.mk [] [] false).setInitial
          [⟨1, 5, 0⟩, ⟨1, 0, 1⟩]) [SimOp.upd 1, SimOp.rst]).particles.length = 1
        ∨ (runSimOps ((Simulation.mk [] [] false).setInitial
          [⟨1, 5, 0⟩, ⟨1, 0, 1⟩]) [SimOp.upd 1, SimOp.rst]).particles.length = 2) :=
  ⟨rfl, (C5_length_invariant (Simulation.mk [] [] false)
    [⟨1, 5, 0⟩, ⟨1, 0, 1⟩] rfl [SimOp.upd 1, SimOp.rst]).1⟩

/-- Claim C6: once the collided flag is true, any further sequence of
updates keeps the particle count and the flag, and a single update from a
collided state only integrates — the resolver can never fire again
without an intervening reset or setInitial. -/
theorem C6_collided_terminal (s : Simulation) (hc : s.hasCollided = true)
    (dts : List ℚ) :
    (runUpdates s dts).particles.length = s.particles.length
    ∧ (runUpdates s dts).hasCollided = true
    ∧ ∀ dt, s.update dt = { s with particles := advance s.particles dt } := by
  refine ⟨?_, ?_, fun dt => update_collided s dt hc⟩ <;>
  · induction dts generalizing s with
    | nil => first | rfl | exact hc
    | cons dt t ih =>
        rw [runUpdates_cons]
        have hstep := update_collided s dt hc
        have hc2 : (s.update dt).hasCollided = true := by rw [hstep]; exact hc
        first
        | rw [ih (s.update dt) hc2, hstep]
          exact advance_length s.particles dt
        | exact ih (s.update dt) hc2

/-- Witness for C6 on a concrete collided single-particle state. -/
theorem C6_collided_terminal_witness :
    (Simulation.mk [⟨7, 5, 3⟩] [] true).hasCollided = true
    ∧ (runUpdates (Simulation.mk [⟨7, 5, 3⟩] [] true) [1, 2]).particles.length
        = (Simulation.mk [⟨7, 5, 3⟩] [] true).particles.length :=
  ⟨rfl, (C6_collided_terminal (Simulation.mk [⟨7, 5, 3⟩] [] true) rfl [1, 2]).1⟩

/-- The kinetic-energy deficit of the merge is
`m1*m2*(v1 - v2)^2 / (2*(m1 + m2))`. -/
lemma merge_energy_deficit (p1 p2 : Particle)
    (hm : p1.mass + p2.mass ≠ 0) :
    totalKineticEnergy p1 p2
      - kineticEnergy { mass := p1.mass + p2.mass,
                        velocity := handleCollision p1 p2, x_pos := 0 }
    = p1.mass * p2.mass * (p1.velocity - p2.velocity) ^ 2
        / (2 * (p1.mass + p2.mass)) := by
  simp only [totalKineticEnergy, kineticEnergy, handleCollision]
  field_simp
  ring

/-- Claim C7: for positive masses, the kinetic energy of the merged
particle is at most the total pre-merge kinetic energy, with equality
exactly when the two velocities agree. -/
theorem C7_energy_nonincrease (p1 p2 : Particle)
    (h1 : 0 < p1.mass) (h2 : 0 < p2.mass) :
    kineticEnergy { mass := p1.mass + p2.mass,
                    velocity := handleCollision p1 p2, x_pos := 0 }
      ≤ totalKineticEnergy p1 p2
    ∧ (kineticEnergy { mass := p1.mass + p2.mass,
                       velocity := handleCollision p1 p2, x_pos := 0 }
        = totalKineticEnergy p1 p2 ↔ p1.velocity = p2.velocity) := by
  have hm : (0 : ℚ) < p1.mass + p2.mass := by linarith
  have key := merge_energy_deficit p1 p2 hm.ne'
  have hden : (0 : ℚ) < 2 * (p1.mass + p2.mass) := by linarith
  have hnum : (0 : ℚ) ≤ p1.mass * p2.mass * (p1.velocity - p2.velocity) ^ 2 :=
    mul_nonneg (mul_nonneg h1.le h2.le) (sq_nonneg _)
  have hnn : (0 : ℚ) ≤ p1.mass * p2.mass * (p1.velocity - p2.velocity) ^ 2
      / (2 * (p1.mass + p2.mass)) := div_nonneg hnum hden.le
  constructor
  · linarith [key]
  · constructor
    · intro he
      have h0 : p1.mass * p2.mass * (p1.velocity - p2.velocity) ^ 2
          / (2 * (p1.mass + p2.mass)) = 0 := by linarith [key]
      have h0' : p1.mass * p2.mass * (p1.velocity - p2.velocity) ^ 2 = 0 := by
        rcases div_eq_zero_iff.mp h0 with h | h
        · exact h
        · exact absurd h hden.ne'
      rcases mul_eq_zero.mp h0' with h | h
      · exact absurd h (mul_pos h1 h2).ne'
      · exact sub_eq_zero.mp (sq_eq_zero_iff.mp h)
    · intro he
      have hzero : p1.mass * p2.mass * (p1.velocity - p2.velocity) ^ 2
          / (2 * (p1.mass + p2.mass)) = 0 := by
        rw [he]
        simp
      linarith [key, hzero]

/-- Witness for C7 at concrete positive masses and unequal velocities. -/
theorem C7_energy_nonincrease_witness :
    (0 : ℚ) < 1 ∧ (0 : ℚ) < 3
    ∧ kineticEnergy { mass := (1 : ℚ) + 3,
                      velocity := handleCollision ⟨1, 2, 0⟩ ⟨3, 4, 5⟩, x_pos := 0 }
        ≤ totalKineticEnergy ⟨1, 2, 0⟩ ⟨3, 4, 5⟩ :=
  ⟨by norm_num, by norm_num,
    (C7_energy_nonincrease ⟨1, 2, 0⟩ ⟨3, 4, 5⟩ (by norm_num) (by norm_num)).1⟩

/-- Claim C8: if update runs with three or more particles, the collided
flag false, and the integrated position of the particle at index 0 at
least that of index 1, the merge replaces the whole sequence by the
single particle combined from the first two: every particle at index 2
or beyond is discarded. -/
theorem C8_extra_particles_discarded (s : Simulation) (dt : ℚ)
    (q1 q2 q3 : Particle) (rest : List Particle)
    (hps : s.particles = q1 :: q2 :: q3 :: rest)
    (hc : s.hasCollided = false)
    (hcross : q1.x_pos + q1.velocity * dt ≥ q2.x_pos + q2.velocity * dt) :
    (s.update dt).particles =
      [{ mass := q1.mass + q2.mass,
         velocity := (q1.mass * q1.velocity + q2.mass * q2.velocity)
             / (q1.mass + q2.mass),
         x_pos := ((q1.x_pos + q1.velocity * dt)
             + (q2.x_pos + q2.velocity * dt)) / 2 }]
    ∧ (s.update dt).hasCollided = true := by
  have hadv : advance s.particles dt =
      ({ q1 with x_pos := q1.x_pos + q1.velocity * dt }) ::
        ({ q2 with x_pos := q2.x_pos + q2.velocity * dt }) ::
          advance (q3 :: rest) dt := by
    simp [advance, hps]
  rw [update_merge s dt _ _ _ hadv hc hcross]
  refine ⟨?_, rfl⟩
  simp [handleCollision]
  ring

/-- Witness for C8 on a concrete three-particle crossed state: the third
particle disappears. -/
theorem C8_extra_particles_discarded_witness :
    ((Simulation.mk [⟨1, 0, 5⟩, ⟨1, 0, 3⟩, ⟨1, 0, 99⟩] [] false).update 0).particles =
      [{ mass := (1 : ℚ) + 1,
         velocity := ((1 : ℚ) * 0 + 1 * 0) / (1 + 1),
         x_pos := (((5 : ℚ) + 0 * 0) + (3 + 0 * 0)) / 2 }]
    ∧ ((Simulation.mk [⟨1, 0, 5⟩, ⟨1, 0, 3⟩, ⟨1, 0, 99⟩] [] false).update 0).hasCollided
        = true :=
  C8_extra_particles_discarded _ 0 ⟨1, 0, 5⟩ ⟨1, 0, 3⟩ ⟨1, 0, 99⟩ [] rfl rfl
    (by norm_num)

/-- Claim C9: `addParticle` appends the particle to the live sequence and
leaves the initial snapshot and the collided flag unchanged, so a later
`reset` produces the same state as a reset without the addition — every
added particle is discarded. -/
theorem C9_addParticle_frame (s : Simulation) (p : Particle) :
    (s.addParticle p).particles = s.particles ++ [p]
    ∧ (s.addParticle p).initial = s.initial
    ∧ (s.addParticle p).hasCollided = s.hasCollided
    ∧ (s.addParticle p).reset = s.reset :=
  ⟨rfl, rfl, rfl, rfl⟩

/-- Claim C10: `update` accepts a negative `dt` unchanged — the
integration step moves every particle by `velocity * dt` for any `dt`,
including negative ones — and the collision test still runs afterward, so
backward integration can trigger the merge, as the concrete run with
`dt = -1` shows. -/
theorem C10_negative_dt (s : Simulation) (dt : ℚ) (hdt : dt < 0) :
    (∀ i (hi : i < s.particles.length)
        (hi' : i < (advance s.particles dt).length),
        (advance s.particles dt).get ⟨i, hi'⟩ =
          { s.particles.get ⟨i, hi⟩ with
            x_pos := (s.particles.get ⟨i, hi⟩).x_pos
                + (s.particles.get ⟨i, hi⟩).velocity * dt })
    ∧ ((Simulation.mk [⟨1, -3, 0⟩, ⟨1, 0, 2⟩] [] false).update (-1)).hasCollided = true
    ∧ ((Simulation.mk [⟨1, -3, 0⟩, ⟨1, 0, 2⟩] [] false).update (-1)).particles.length
        = 1 := by
  refine ⟨?_, ?_, ?_⟩
  · intro i hi hi'
    simp [advance]
  · simp [Simulation.update, advance]
    norm_num
  · simp [Simulation.update, advance]
    norm_num

/-- Witness for C10 at `dt = -1`. -/
theorem C10_negative_dt_witness :
    (-1 : ℚ) < 0
    ∧ ((Simulation.mk [⟨1, -3, 0⟩, ⟨1, 0, 2⟩] [] false).update (-1)).hasCollided = true :=
  ⟨by norm_num,
    (C10_negative_dt (Simulation.mk [⟨1, -3, 0⟩, ⟨1, 0, 2⟩] [] false) (-1)
      (by norm_num)).2.1⟩
